import Mathlib

/-!
Verification of the wallet-to-chain transaction pipeline of the SHM tip-jar
repository (client `web3Service` / `Web3Service`, `TipModal`/`WalletConnect`
components, and the Express store in `server/index.js`).

Each definition is a shallow embedding of one function of the source; the
network, the injected wallet provider and the HTTP store are modelled as
explicit environments/states that are threaded through the code, and every
external call made by a function is recorded in an explicit trace so that
"this call is never reached" properties can be stated.

JavaScript numbers are IEEE-754 doubles; where rounding is observable
(the tip form's amount/balance comparisons) strings are parsed to exact
binary doubles (`JsFloat`, a 53-bit mantissa over a power of two), and
where it is not (the server's bookkeeping string) to exact scaled decimals
(`JsNum`).  NaN is modelled as `Option.none`, and the JS comparison
operators, which are false on NaN, are false on `none` accordingly.
-/

namespace TipJar

/-! ## Decimal digit strings -/

/-- A decimal digit character to its value (`'0'`–`'9'`), `none` otherwise. -/
def charDigit (c : Char) : Option Nat :=
  if 48 ≤ c.toNat ∧ c.toNat ≤ 57 then some (c.toNat - 48) else none

/-- The character of a decimal digit value. -/
def digitChar (d : Nat) : Char := Char.ofNat (d + 48)

/-- Read a big-endian list of decimal digit characters; `none` if any
character is not a digit.  (`[]` reads as `0`; emptiness is checked by
callers, matching the JS code.) -/
def readDigitsAux : List Char → Option (List Nat)
  | [] => some []
  | c :: cs =>
    match charDigit c, readDigitsAux cs with
    | some d, some ds => some (d :: ds)
    | _, _ => none

/-- Numeric value of a big-endian decimal digit string. -/
def readDigits (cs : List Char) : Option Nat :=
  (readDigitsAux cs).map fun ds => Nat.ofDigits 10 ds.reverse

/-- Little-endian base-10 digits, fuel-bounded so that the kernel can
evaluate it (`Nat.digits` is well-founded recursion and does not reduce). -/
def digits10Aux : Nat → Nat → List Nat
  | _, 0 => []
  | 0, _ + 1 => []
  | fuel + 1, n + 1 => (n + 1) % 10 :: digits10Aux fuel ((n + 1) / 10)

/-- Little-endian base-10 digits of `n` (empty for `0`). -/
def digits10 (n : Nat) : List Nat := digits10Aux n n

theorem digits10Aux_eq (fuel n : Nat) (h : n ≤ fuel) :
    digits10Aux fuel n = Nat.digits 10 n := by
  induction fuel generalizing n with
  | zero => interval_cases n; simp [digits10Aux]
  | succ m ih =>
    cases n with
    | zero => simp [digits10Aux]
    | succ k =>
      rw [digits10Aux, Nat.digits_def' (b := 10) (by norm_num) (Nat.succ_pos k),
        ih ((k + 1) / 10) (by omega)]

theorem digits10_eq (n : Nat) : digits10 n = Nat.digits 10 n :=
  digits10Aux_eq n n le_rfl

/-- Big-endian decimal digit characters of `n` (empty for `0`). -/
def natDigitsBE (n : Nat) : List Char :=
  ((digits10 n).map digitChar).reverse

/-- Decimal string of `n`, as JavaScript's `toString` prints a BigInt. -/
def natStr (n : Nat) : List Char :=
  if n = 0 then ['0'] else natDigitsBE n

/-! ## Base-unit (wei) conversion

`ethers.parseEther` / `web3.utils.toWei` convert a decimal SHM amount string
to its integer wei value (18 decimals); `ethers.formatEther` /
`web3.utils.fromWei` convert back, printing the integer part, a dot, and the
fraction with trailing zeros trimmed (at least one fractional digit is kept,
as `formatEther` does).  These are the `toBaseUnits`/`fromBaseUnits`
operations of the spec; the definitions below model the library code the
source calls in `ShardeumAPI.parseSHM`/`formatSHM` and in
`Web3Service.sendTip`. -/

/-- One ether/SHM in wei. -/
def weiPerEther : Nat := 10 ^ 18

/-- The 18-digit zero-padded fraction block of a wei remainder. -/
def padFrac (f : Nat) : List Char :=
  List.replicate (18 - (natDigitsBE f).length) '0' ++ natDigitsBE f

/-- Drop trailing `'0'` characters. -/
def trimRightZeros (cs : List Char) : List Char :=
  (cs.reverse.dropWhile fun c => c = '0').reverse

/-- The fractional digit string printed for a wei remainder `f`: the
18-digit block with trailing zeros trimmed, or `"0"` if nothing remains. -/
def fracStr (f : Nat) : List Char :=
  let t := trimRightZeros (padFrac f)
  if t.isEmpty then ['0'] else t

/-- `fromBaseUnits` (`ethers.formatEther`): decimal string of a wei value. -/
def fromBaseUnitsL (w : Nat) : List Char :=
  natStr (w / weiPerEther) ++ '.' :: fracStr (w % weiPerEther)

/-- Split a character list at the first `'.'`. -/
def splitAtDot : List Char → List Char × Option (List Char)
  | [] => ([], none)
  | c :: cs =>
    if c = '.' then ([], some cs)
    else
      let r := splitAtDot cs
      (c :: r.1, r.2)

/-- `toBaseUnits` (`ethers.parseEther`): parse a decimal amount string into
its wei value; `none` when the string is not a valid nonnegative decimal
with at most 18 fractional digits (`parseEther` throws there). -/
def toBaseUnitsL (cs : List Char) : Option Nat :=
  match splitAtDot cs with
  | (ip, none) =>
    if ip.isEmpty then none else (readDigits ip).map (· * weiPerEther)
  | (ip, some fp) =>
    if ip.isEmpty && fp.isEmpty then none
    else if 18 < fp.length then none
    else
      match readDigits ip, readDigits fp with
      | some i, some f => some (i * weiPerEther + f * 10 ^ (18 - fp.length))
      | _, _ => none

/-- String-level `toBaseUnits`. -/
def toBaseUnits (s : String) : Option Nat := toBaseUnitsL s.data

/-- String-level `fromBaseUnits`. -/
def fromBaseUnits (w : Nat) : String := String.mk (fromBaseUnitsL w)

example : toBaseUnits "1.5" = some 1500000000000000000 := by decide
example : toBaseUnits "0.000000000000000001" = some 1 := by decide
example : toBaseUnits "2" = some 2000000000000000000 := by decide
example : toBaseUnits "1.2.3" = none := by decide
example : toBaseUnits "" = none := by decide
example : toBaseUnits "0.0000000000000000001" = none := by decide
example : fromBaseUnits 1500000000000000000 = "1.5" := by decide
example : fromBaseUnits 0 = "0.0" := by decide
example : fromBaseUnits 1 = "0.000000000000000001" := by decide
example : fromBaseUnits 50000000000000000 = "0.05" := by decide

/-! ### Round-trip lemmas -/

theorem charDigit_digitChar {d : Nat} (h : d < 10) :
    charDigit (digitChar d) = some d := by
  interval_cases d <;> decide

theorem readDigitsAux_map (ds : List Nat) (h : ∀ d ∈ ds, d < 10) :
    readDigitsAux (ds.map digitChar) = some ds := by
  induction ds with
  | nil => rfl
  | cons d ds ih =>
    simp only [List.map_cons, readDigitsAux,
      charDigit_digitChar (h d (List.mem_cons_self d ds)),
      ih fun x hx => h x (List.mem_cons_of_mem d hx)]

theorem readDigitsAux_append (xs ys : List Char) :
    readDigitsAux (xs ++ ys) =
      (readDigitsAux xs).bind fun a => (readDigitsAux ys).map fun b => a ++ b := by
  induction xs with
  | nil => cases h : readDigitsAux ys <;> simp [readDigitsAux, h]
  | cons c cs ih =>
    cases hc : charDigit c <;> cases ha : readDigitsAux cs <;>
      cases hb : readDigitsAux ys <;>
        simp [readDigitsAux, hc, ha, hb, ih]

theorem readDigitsAux_replicate_zero (j : Nat) :
    readDigitsAux (List.replicate j '0') = some (List.replicate j 0) := by
  induction j with
  | zero => rfl
  | succ k ih =>
    simp [List.replicate_succ, readDigitsAux, ih,
      show charDigit '0' = some 0 from rfl]

theorem ofDigits_replicate_zero (j : Nat) :
    Nat.ofDigits 10 (List.replicate j 0) = 0 := by
  induction j with
  | zero => rfl
  | succ k ih => simp [List.replicate_succ, Nat.ofDigits_cons, ih]

theorem readDigitsAux_natDigitsBE (n : Nat) :
    readDigitsAux (natDigitsBE n) = some (Nat.digits 10 n).reverse := by
  unfold natDigitsBE
  rw [digits10_eq, ← List.map_reverse]
  exact readDigitsAux_map _ fun d hd =>
    Nat.digits_lt_base (by norm_num) (List.mem_reverse.1 hd)

theorem readDigits_natDigitsBE (n : Nat) :
    readDigits (natDigitsBE n) = some n := by
  rw [readDigits, readDigitsAux_natDigitsBE]
  simp [Nat.ofDigits_digits]

theorem readDigits_natStr (n : Nat) : readDigits (natStr n) = some n := by
  unfold natStr
  split
  · subst n; decide
  · exact readDigits_natDigitsBE n

theorem natStr_ne_nil (n : Nat) : natStr n ≠ [] := by
  unfold natStr
  split
  · simp
  · unfold natDigitsBE
    simp [digits10_eq, Nat.digits_ne_nil_iff_ne_zero, *]

theorem digitChar_ne_dot {d : Nat} (h : d < 10) : digitChar d ≠ '.' := by
  interval_cases d <;> decide

theorem natStr_no_dot (n : Nat) : ∀ c ∈ natStr n, c ≠ '.' := by
  intro c hc
  unfold natStr at hc
  split at hc
  · simp at hc; subst hc; decide
  · unfold natDigitsBE at hc
    rw [List.mem_reverse] at hc
    obtain ⟨d, hd, rfl⟩ := List.mem_map.1 hc
    exact digitChar_ne_dot (Nat.digits_lt_base (by norm_num) (digits10_eq n ▸ hd))

theorem readDigits_padFrac (f : Nat) : readDigits (padFrac f) = some f := by
  rw [padFrac, readDigits, readDigitsAux_append, readDigitsAux_replicate_zero,
    readDigitsAux_natDigitsBE]
  simp [List.reverse_append, List.reverse_replicate, Nat.ofDigits_append,
    ofDigits_replicate_zero, Nat.ofDigits_digits]

theorem readDigits_append_zeros (T : List Char) (j : Nat) :
    readDigits (T ++ List.replicate j '0') =
      (readDigits T).map (· * 10 ^ j) := by
  rw [readDigits, readDigitsAux_append, readDigitsAux_replicate_zero]
  cases h : readDigitsAux T with
  | none => simp [readDigits, h]
  | some T' =>
    simp [readDigits, h, List.reverse_append, List.reverse_replicate,
      Nat.ofDigits_append, ofDigits_replicate_zero, Nat.mul_comm]

theorem trim_decomp (cs : List Char) :
    ∃ j, cs = trimRightZeros cs ++ List.replicate j '0' := by
  refine ⟨(cs.reverse.takeWhile fun c => c = '0').length, ?_⟩
  have htk : cs.reverse.takeWhile (fun c => c = '0') =
      List.replicate (cs.reverse.takeWhile fun c => c = '0').length '0' :=
    List.eq_replicate_of_mem fun b hb => by
      simpa using List.mem_takeWhile_imp hb
  conv_lhs => rw [← cs.reverse_reverse,
    ← List.takeWhile_append_dropWhile (p := fun c => c = '0') (l := cs.reverse)]
  rw [List.reverse_append, trimRightZeros, htk, List.reverse_replicate]
  simp [List.length_replicate]

theorem padFrac_length {f : Nat} (hf : f < weiPerEther) :
    (padFrac f).length = 18 := by
  have hlen : (natDigitsBE f).length ≤ 18 := by
    unfold natDigitsBE
    rw [List.length_reverse, List.length_map, digits10_eq]
    rcases Nat.eq_zero_or_pos f with rfl | hpos
    · simp
    · have hne : f ≠ 0 := Nat.pos_iff_ne_zero.1 hpos
      rw [Nat.digits_len 10 f (by norm_num) hne]
      have := (Nat.lt_pow_iff_log_lt (b := 10) (by norm_num) hne).1 hf
      omega
  simp [padFrac, List.length_append, List.length_replicate]
  omega

theorem fracStr_roundtrip (f : Nat) (hf : f < weiPerEther) :
    (fracStr f).length ≤ 18 ∧
      ∃ t, readDigits (fracStr f) = some t ∧
        t * 10 ^ (18 - (fracStr f).length) = f := by
  obtain ⟨j, hj⟩ := trim_decomp (padFrac f)
  have hlen : (trimRightZeros (padFrac f)).length + j = 18 := by
    have := padFrac_length hf
    rw [hj, List.length_append, List.length_replicate] at this
    omega
  have hval : (readDigits (trimRightZeros (padFrac f))).map (· * 10 ^ j) =
      some f := by
    rw [← readDigits_append_zeros, ← hj, readDigits_padFrac]
  cases hTL : trimRightZeros (padFrac f) with
  | nil =>
    have hfs : fracStr f = ['0'] := by simp [fracStr, hTL]
    have hf0 : f = 0 := by
      rw [hTL] at hval
      simpa [readDigits, readDigitsAux, Nat.ofDigits_nil] using hval.symm
    subst hf0
    rw [hfs]
    exact ⟨by decide, 0, by decide, by decide⟩
  | cons a l =>
    have hfs : fracStr f = a :: l := by simp [fracStr, hTL]
    rw [hTL] at hval hlen
    cases hT : readDigits (a :: l) with
    | none => rw [hT] at hval; simp at hval
    | some t =>
      rw [hT] at hval
      simp only [Option.map_some'] at hval
      have htf : t * 10 ^ j = f := by injection hval
      refine ⟨?_, t, ?_, ?_⟩
      · rw [hfs]; omega
      · rw [hfs]; exact hT
      · rw [hfs]
        have hj18 : 18 - (a :: l).length = j := by omega
        rw [hj18]; exact htf

theorem splitAtDot_append (A B : List Char) (hA : ∀ c ∈ A, c ≠ '.') :
    splitAtDot (A ++ '.' :: B) = (A, some B) := by
  induction A with
  | nil => simp [splitAtDot]
  | cons c cs ih =>
    have hc : c ≠ '.' := hA c (List.mem_cons_self c cs)
    have ih' := ih fun x hx => hA x (List.mem_cons_of_mem c hx)
    simp only [List.cons_append, splitAtDot, if_neg hc, List.append_eq, ih']

/-- Main round-trip: parsing the printed form of any wei value recovers it. -/
theorem toBaseUnitsL_fromBaseUnitsL (w : Nat) :
    toBaseUnitsL (fromBaseUnitsL w) = some w := by
  have hmod : w % weiPerEther < weiPerEther :=
    Nat.mod_lt _ (by unfold weiPerEther; norm_num)
  obtain ⟨hlen, t, hT, htv⟩ := fracStr_roundtrip (w % weiPerEther) hmod
  rw [fromBaseUnitsL, toBaseUnitsL,
    splitAtDot_append _ _ (natStr_no_dot (w / weiPerEther))]
  have hne : (natStr (w / weiPerEther)).isEmpty = false := by
    cases h : natStr (w / weiPerEther) with
    | nil => exact absurd h (natStr_ne_nil _)
    | cons a l => rfl
  have h18 : ¬ 18 < (fracStr (w % weiPerEther)).length := by omega
  simp [hne, h18, readDigits_natStr, hT, htv, Nat.div_add_mod']

/-- C4: for every valid decimal amount string `a`,
`toBaseUnits (fromBaseUnits (toBaseUnits a)) = toBaseUnits a` — converting
an amount to wei, back to a decimal string, and to wei again is stable. -/
theorem claim_C4 (a : String) (w : Nat) (h : toBaseUnits a = some w) :
    toBaseUnits (fromBaseUnits w) = toBaseUnits a := by
  rw [h]
  exact toBaseUnitsL_fromBaseUnitsL w

/-- Witness for C4 at the concrete amount "1.5". -/
theorem claim_C4_witness :
    toBaseUnits "1.5" = some 1500000000000000000 ∧
      toBaseUnits (fromBaseUnits 1500000000000000000) = toBaseUnits "1.5" :=
  ⟨by decide, claim_C4 "1.5" 1500000000000000000 (by decide)⟩

/-! ## Address validation

The validator on the live path is `ShardeumAPI.isValidAddress`, which
calls `ethers.isAddress` (`TipModal.validateForm` uses it); the model
below follows it.  `ethers.isAddress`: if the string matches
`(0x)?[0-9a-fA-F]{40}` — the `0x` mark is optional but case-sensitive, so
a bare 40-hex-character string is accepted while a `0X` mark is not — it
is accepted immediately when its hex letters are uniformly lower case or
uniformly upper case, and otherwise validated against the EIP-55
mixed-case checksum, which compares each letter's case against the
corresponding nibble of the Keccak-256 hash of the lower-cased body.
Failing that, a string of the ICAP shape `XE[0-9]{2}[0-9A-Za-z]{30,31}` is
accepted when its IBAN mod-97 check digits match and its base-36 payload
fits in 160 bits.  Everything else is rejected.  The Keccak-256
permutation is implemented in full below so that the checksum branch is
the real computation the library performs.  (The near-duplicate
`Web3Service.isValidAddress` delegates to `web3.utils.isAddress`, which
differs only off this model's happy path: it also accepts an upper-case
`0X` mark and has no ICAP branch.) -/

/-- Left-rotation of a 64-bit lane. -/
def rotl64 (x n : Nat) : Nat := ((x <<< n) ||| (x >>> (64 - n))) % (2 ^ 64)

/-- Round constants of Keccak-f[1600]. -/
def keccakRC : List Nat :=
  [0x0000000000000001, 0x0000000000008082, 0x800000000000808a, 0x8000000080008000,
   0x000000000000808b, 0x0000000080000001, 0x8000000080008081, 0x8000000000008009,
   0x000000000000008a, 0x0000000000000088, 0x0000000080008009, 0x000000008000000a,
   0x000000008000808b, 0x800000000000008b, 0x8000000000008089, 0x8000000000008003,
   0x8000000000008002, 0x8000000000000080, 0x000000000000800a, 0x800000008000000a,
   0x8000000080008081, 0x8000000000008080, 0x0000000080000001, 0x8000000080008008]

/-- Rotation offsets of Keccak-f[1600], indexed `x + 5 * y`: the offset at
the `t`-th position of the standard `(x, y) ↦ (y, 2x + 3y)` walk from
`(1, 0)` is the triangular number `(t+1)(t+2)/2 mod 64`. -/
def keccakRot : List Nat :=
  ((List.range 24).foldl
    (fun st t =>
      ((st.1.2, (2 * st.1.1 + 3 * st.1.2) % 5),
        st.2.set (st.1.1 + 5 * st.1.2) ((t + 1) * (t + 2) / 2 % 64)))
    ((1, 0), List.replicate 25 0)).2

/-- Lane `i` of a 25-lane state. -/
def lane (st : List Nat) (i : Nat) : Nat := st.getD i 0

/-- The θ step. -/
def keccakTheta (st : List Nat) : List Nat :=
  let c := fun x =>
    lane st x ^^^ lane st (x + 5) ^^^ lane st (x + 10) ^^^
      lane st (x + 15) ^^^ lane st (x + 20)
  let d := fun x => c ((x + 4) % 5) ^^^ rotl64 (c ((x + 1) % 5)) 1
  (List.range 25).map fun i => lane st i ^^^ d (i % 5)

/-- The ρ and π steps combined: lane `(x, y)` of the output is the rotated
source lane `((x + 3y) mod 5, x)`. -/
def keccakRhoPi (st : List Nat) : List Nat :=
  (List.range 25).map fun i =>
    let x := i % 5
    let y := i / 5
    let src := (x + 3 * y) % 5 + 5 * x
    rotl64 (lane st src) (keccakRot.getD src 0)

/-- The χ step. -/
def keccakChi (st : List Nat) : List Nat :=
  (List.range 25).map fun i =>
    let x := i % 5
    let y := i / 5
    lane st i ^^^
      ((lane st ((x + 1) % 5 + 5 * y) ^^^ (2 ^ 64 - 1)) &&&
        lane st ((x + 2) % 5 + 5 * y))

/-- The ι step. -/
def keccakIota (rc : Nat) : List Nat → List Nat
  | [] => []
  | a :: rest => (a ^^^ rc) :: rest

/-- One round of Keccak-f[1600]. -/
def keccakRound (st : List Nat) (rc : Nat) : List Nat :=
  keccakIota rc (keccakChi (keccakRhoPi (keccakTheta st)))

/-- The full 24-round Keccak-f[1600] permutation. -/
def keccakP (st : List Nat) : List Nat := keccakRC.foldl keccakRound st

/-- A little-endian byte list as one 64-bit lane. -/
def bytesToLane (bs : List Nat) : Nat := bs.foldr (fun b acc => acc * 256 + b) 0

/-- The 17 rate lanes of a 136-byte block. -/
def blockLanes (blk : List Nat) : List Nat :=
  (List.range 17).map fun j => bytesToLane ((blk.drop (8 * j)).take 8)

/-- XOR a block into the state and permute. -/
def absorbBlock (st : List Nat) (blk : List Nat) : List Nat :=
  keccakP ((List.range 25).map fun i => lane st i ^^^ (blockLanes blk).getD i 0)

/-- Multi-rate padding of original Keccak (domain byte `0x01`), as used by
Ethereum (not the SHA-3 variant). -/
def keccakPadding (len : Nat) : List Nat :=
  let q := 136 - len % 136
  if q = 1 then [0x81] else 0x01 :: (List.replicate (q - 2) 0 ++ [0x80])

/-- Split a byte list into 136-byte blocks (fuel-bounded recursion so the
kernel can evaluate it). -/
def chunks136 : Nat → List Nat → List (List Nat)
  | 0, _ => []
  | _ + 1, [] => []
  | fuel + 1, c :: cs => (c :: cs).take 136 :: chunks136 fuel ((c :: cs).drop 136)

/-- Keccak-256 of a byte list, as a 32-byte list. -/
def keccak256 (msg : List Nat) : List Nat :=
  let padded := msg ++ keccakPadding msg.length
  let blocks := chunks136 padded.length padded
  let st := blocks.foldl absorbBlock (List.replicate 25 0)
  (List.range 32).map fun i => (lane st (i / 8)) >>> (8 * (i % 8)) &&& 255

set_option maxRecDepth 100000

/-- Keccak-256 of the empty input (standard test vector). -/
example : keccak256 [] =
    [0xc5, 0xd2, 0x46, 0x01, 0x86, 0xf7, 0x23, 0x3c, 0x92, 0x7e, 0x7d, 0xb2,
     0xdc, 0xc7, 0x03, 0xc0, 0xe5, 0x00, 0xb6, 0x53, 0xca, 0x82, 0x27, 0x3b,
     0x7b, 0xfa, 0xd8, 0x04, 0x5d, 0x85, 0xa4, 0x70] := by decide

/-- `lo ≤ n ≤ hi`, as a Bool. -/
def natBetween (lo n hi : Nat) : Bool := decide (lo ≤ n ∧ n ≤ hi)

/-- A decimal digit or a lower-case hex letter. -/
def isLowerHexDigit (c : Char) : Bool :=
  natBetween 48 c.toNat 57 || natBetween 97 c.toNat 102

/-- A decimal digit or an upper-case hex letter. -/
def isUpperHexDigit (c : Char) : Bool :=
  natBetween 48 c.toNat 57 || natBetween 65 c.toNat 70

/-- Any hex digit, either case. -/
def isHexDigitCh (c : Char) : Bool :=
  isLowerHexDigit c || natBetween 65 c.toNat 70

/-- Lower-case an upper-case hex letter, identity otherwise. -/
def toLowerHexChar (c : Char) : Char :=
  if 65 ≤ c.toNat ∧ c.toNat ≤ 70 then Char.ofNat (c.toNat + 32) else c

/-- EIP-55 checksum test (`web3.utils.checkAddressCheckSum` /
`ethers` `getChecksumAddress` comparison): the `i`-th character must be
upper case exactly when the `i`-th nibble of the Keccak-256 hash of the
lower-cased 40-character body is greater than 7 — digits pass either way. -/
def checksumOk (body : List Char) : Bool :=
  let lowered := body.map toLowerHexChar
  let hash := keccak256 (lowered.map Char.toNat)
  let nibbles := hash.foldr (fun b acc => b / 16 :: b % 16 :: acc) ([] : List Nat)
  (body.zip (nibbles.take 40)).all fun p =>
    if 7 < p.2 then !natBetween 97 p.1.toNat 102
    else !natBetween 65 p.1.toNat 70

/-- Strip an optional leading `0x` mark (lower-case only, as the `ethers`
address regex is case-sensitive about it). -/
def dropHexMark : List Char → List Char
  | '0' :: 'x' :: rest => rest
  | cs => cs

/-- Base-36 digit value, case-insensitive (`0`-`9`, `a`-`z`, `A`-`Z`);
junk characters are excluded by the shape check. -/
def base36Val (c : Char) : Nat :=
  if 48 ≤ c.toNat ∧ c.toNat ≤ 57 then c.toNat - 48
  else if 97 ≤ c.toNat ∧ c.toNat ≤ 122 then c.toNat - 87
  else if 65 ≤ c.toNat ∧ c.toNat ≤ 90 then c.toNat - 55
  else 0

/-- A base-36 alphanumeric character (`[0-9A-Za-z]`). -/
def isBase36Char (c : Char) : Bool :=
  natBetween 48 c.toNat 57 || natBetween 97 c.toNat 122 ||
    natBetween 65 c.toNat 90

/-- The IBAN mod-97 accumulator of `ethers` `ibanChecksum`: a digit
contributes one decimal digit, a letter its two-digit value 10–35 (the
upper-casing of the source is absorbed by the case-insensitive
valuation). -/
def ibanMod97 (cs : List Char) : Nat :=
  cs.foldl
    (fun acc c =>
      if 48 ≤ c.toNat ∧ c.toNat ≤ 57 then (acc * 10 + (c.toNat - 48)) % 97
      else (acc * 100 + base36Val c) % 97) 0

/-- `ethers` `fromBase36`. -/
def fromBase36 (cs : List Char) : Nat :=
  cs.foldl (fun acc c => acc * 36 + base36Val c) 0

/-- The ICAP shape `XE[0-9]{2}[0-9A-Za-z]{30,31}` of `ethers`. -/
def icapShape : List Char → Bool
  | 'X' :: 'E' :: d1 :: d2 :: rest =>
    (charDigit d1).isSome && (charDigit d2).isSome &&
      (decide (rest.length = 30) || decide (rest.length = 31)) &&
      rest.all isBase36Char
  | _ => false

/-- ICAP validity beyond the shape: the two declared check digits equal
`98 - (payload ++ "XE00" read mod 97)`, and the base-36 payload fits in
160 bits (a larger payload prints more than 40 hex digits and the
recursive `getAddress` call rejects it). -/
def icapOk : List Char → Bool
  | x :: e :: d1 :: d2 :: rest =>
    let n := ibanMod97 (rest ++ [x, e, '0', '0'])
    decide ((charDigit d1).getD 0 * 10 + (charDigit d2).getD 0 = 98 - n) &&
      decide (fromBase36 rest < 16 ^ 40)
  | _ => false

/-- `isValidAddress` (`ethers.isAddress`): the 40-hex-character format
(with its optional lower-case `0x` mark) validated by uniform case or the
EIP-55 checksum, else the ICAP fallback, else false. -/
def isValidAddressL (cs : List Char) : Bool :=
  let body := dropHexMark cs
  if body.length = 40 && body.all isHexDigitCh then
    if body.all isLowerHexDigit || body.all isUpperHexDigit then true
    else checksumOk body
  else if icapShape cs then icapOk cs
  else false

/-- String-level `isValidAddress`. -/
def isValidAddress (s : String) : Bool := isValidAddressL s.data

example : isValidAddress "0x26d6a3805cbae5d5a510443a15129bec456cacff" = true := by
  decide

example : isValidAddress "0x123" = false := by decide

example : isValidAddress "0XAAAAAAAAAAAAAAAAAAAAAAAAAAAAAAAAAAAAAAAA" = false := by
  decide

example : isValidAddress "XE7338O073KYGTWWZN0F2WZ0R8PX5ZPPZS" = true := by
  decide

example : isValidAddress "XE7438O073KYGTWWZN0F2WZ0R8PX5ZPPZS" = false := by
  decide

/-- C5 counterexample: the claim "false for strings missing the 0x prefix,
and the result is independent of the letter case of the hex digits" fails
on the code.  A bare 40-hex-character string with no `0x` mark is accepted
(the libraries normalize the prefix), and the two EIP-55 strings below
differ only in the case of one hex letter yet validate differently (the
mixed-case body is checksum-checked). -/
theorem claim_C5_counterexample :
    isValidAddress "aaaaaaaaaaaaaaaaaaaaaaaaaaaaaaaaaaaaaaaa" = true ∧
      isValidAddress "0x5aAeb6053F3E94C9b9A09f33669435E7Ef1BeAed" = true ∧
        isValidAddress "0x5aaeb6053F3E94C9b9A09f33669435E7Ef1BeAed" = false :=
  ⟨by decide, by decide, by decide⟩

/-- C5 (amended): `isValidAddress` returns false for every string that
neither consists of exactly 40 hex characters after an optional lower-case
`0x` mark nor has the ICAP shape; it returns true for every well-formed
hex string whose letters are uniformly lower case or uniformly upper case
(including strings with no `0x` mark at all); on a mixed-case well-formed
hex string it returns the EIP-55 checksum verdict, so the result is not
independent of letter case; and on an ICAP-shaped string it returns the
IBAN mod-97 check-digit-and-range verdict. -/
theorem claim_C5 (s : String) :
    (¬ ((dropHexMark s.data).length = 40 ∧
        (dropHexMark s.data).all isHexDigitCh = true) →
      icapShape s.data = false →
      isValidAddress s = false) ∧
    ((dropHexMark s.data).length = 40 →
      (dropHexMark s.data).all isHexDigitCh = true →
      ((dropHexMark s.data).all isLowerHexDigit = true ∨
        (dropHexMark s.data).all isUpperHexDigit = true) →
      isValidAddress s = true) ∧
    ((dropHexMark s.data).length = 40 →
      (dropHexMark s.data).all isHexDigitCh = true →
      (dropHexMark s.data).all isLowerHexDigit = false →
      (dropHexMark s.data).all isUpperHexDigit = false →
      isValidAddress s = checksumOk (dropHexMark s.data)) ∧
    (¬ ((dropHexMark s.data).length = 40 ∧
        (dropHexMark s.data).all isHexDigitCh = true) →
      icapShape s.data = true →
      isValidAddress s = icapOk s.data) := by
  unfold isValidAddress isValidAddressL
  refine ⟨fun h hicap => ?_, fun h1 h2 h3 => ?_, fun h1 h2 h3 h4 => ?_,
    fun h hicap => ?_⟩
  · rw [if_neg ?hfmt, if_neg (by simp only [hicap]; exact Bool.false_ne_true)]
    case hfmt =>
      simp only [Bool.and_eq_true, decide_eq_true_eq]
      exact h
  · rw [if_pos (by simp only [Bool.and_eq_true, decide_eq_true_eq]; exact ⟨h1, h2⟩),
      if_pos (by simp only [Bool.or_eq_true]; exact h3)]
  · rw [if_pos (by simp only [Bool.and_eq_true, decide_eq_true_eq]; exact ⟨h1, h2⟩),
      if_neg (by simp only [h3, h4, Bool.or_self]; exact Bool.false_ne_true)]
  · rw [if_neg ?hfm2, if_pos hicap]
    case hfm2 =>
      simp only [Bool.and_eq_true, decide_eq_true_eq]
      exact h

/-- Witness for the amended C5 at a concrete well-formed uniform-case
address with no `0x` mark misuse: the positive branch fires. -/
theorem claim_C5_witness :
    isValidAddress "0xAAAAAAAAAAAAAAAAAAAAAAAAAAAAAAAAAAAAAAAA" = true :=
  (claim_C5 "0xAAAAAAAAAAAAAAAAAAAAAAAAAAAAAAAAAAAAAAAA").2.1
    (by decide) (by decide) (Or.inr (by decide))

/-! ## JavaScript numbers

JS numbers are IEEE-754 doubles.  Two models are used here, each where it
is faithful to the claims that rest on it:

* `jsParseFloatDbl` parses a decimal string and rounds the exact value to
  the nearest double (round-to-nearest, ties to even, subnormals,
  overflow to Infinity), representing the double exactly as
  `mant * 2 ^ q`.  This is the model behind `validateForm`'s comparisons,
  where double rounding is observable: strings such as
  `"0.100000000000000001"` and `"0.1"` parse to the *same* double.
* `jsParseFloat` parses to the exact scaled decimal `mant / 10 ^ dexp`.
  It backs only the server's `totalTips` bookkeeping string
  (`addNumStrings`), where the claims do not depend on the stored value.

`NaN` is `none`; JS comparisons are false whenever one side is NaN.
Exponent notation, `Infinity` literals and leading whitespace are outside
the modelled input space (the amounts handled by this code are plain
decimal strings). -/

/-- Number of binary digits of `n`, 0 for 0 (fuel-bounded so the kernel
can evaluate it). -/
def bitLenAux : Nat → Nat → Nat
  | 0, _ => 0
  | _ + 1, 0 => 0
  | fuel + 1, n + 1 => bitLenAux fuel ((n + 1) / 2) + 1

/-- Number of binary digits of `n` (0 for 0). -/
def bitLen (n : Nat) : Nat := bitLenAux n n

/-- A parsed JS number: a finite double with value `mant * 2 ^ q`
(`|mant| < 2 ^ 53`), or an overflow to ±Infinity. -/
inductive JsFloat where
  | finite (mant : Int) (q : Int)
  | infinite (neg : Bool)
deriving DecidableEq

/-- `2 ^ e ≤ num / den`, by integer shifts. -/
def pow2LeRat (e : Int) (num den : Nat) : Bool :=
  if 0 ≤ e then decide (den <<< e.toNat ≤ num)
  else decide (den ≤ num <<< (-e).toNat)

/-- `⌊log₂ (num / den)⌋` for positive `num`, `den`: the bit-length
estimate, corrected by one comparison. -/
def floorLog2 (num den : Nat) : Int :=
  let e0 : Int := (bitLen num : Int) - (bitLen den : Int)
  if pow2LeRat e0 num den then e0 else e0 - 1

/-- Round `num / den` to the nearest integer, ties to even. -/
def roundHalfEven (num den : Nat) : Nat :=
  let s := num / den
  let r := num % den
  if den < 2 * r ∨ (2 * r = den ∧ s % 2 = 1) then s + 1 else s

/-- Round a positive rational to the nearest IEEE-754 double: quantize at
`2 ^ (⌊log₂⌋ - 52)` (or `2 ^ -1074` in the subnormal range) with ties to
even; a rounded value of `2 ^ 1024` or more overflows to Infinity. -/
def roundPosToFloat (num den : Nat) : JsFloat :=
  let e := floorLog2 num den
  let q : Int := max (e - 52) (-1074)
  let s :=
    if 0 ≤ q then roundHalfEven num (den <<< q.toNat)
    else roundHalfEven (num <<< (-q).toNat) den
  if 1025 ≤ (bitLen s : Int) + q then .infinite false else .finite s q

/-- Negate a parsed JS number. -/
def JsFloat.neg : JsFloat → JsFloat
  | .finite m q => .finite (-m) q
  | .infinite b => .infinite (!b)

/-- `≤` on doubles (total — NaN is handled at the `Option` level). -/
def JsFloat.le : JsFloat → JsFloat → Bool
  | .infinite true, _ => true
  | _, .infinite false => true
  | .infinite false, _ => false
  | _, .infinite true => false
  | .finite m q, .finite n r =>
    let s := min q r
    decide (m * 2 ^ (q - s).toNat ≤ n * 2 ^ (r - s).toNat)

/-- `<` on doubles. -/
def JsFloat.lt (a b : JsFloat) : Bool := !(JsFloat.le b a)

/-- Rational value of a finite double `mant * 2 ^ q`. -/
def dblVal (m q : Int) : ℚ := (m : ℚ) * (2 : ℚ) ^ q

theorem dblVal_zero : dblVal 0 0 = 0 := by simp [dblVal]

theorem zpow_toNat_sub (q s : Int) (h : s ≤ q) :
    ((2 : ℚ)) ^ ((q - s).toNat) = (2 : ℚ) ^ (q - s) := by
  rw [← zpow_natCast]
  congr 1
  omega

theorem JsFloat.le_finite_iff (m q n r : Int) :
    JsFloat.le (.finite m q) (.finite n r) = true ↔ dblVal m q ≤ dblVal n r := by
  unfold JsFloat.le dblVal
  rw [decide_eq_true_eq]
  have hqs : min q r ≤ q := min_le_left q r
  have hrs : min q r ≤ r := min_le_right q r
  have hpos : (0 : ℚ) < (2 : ℚ) ^ (min q r) := zpow_pos (by norm_num) _
  constructor
  · intro h
    have hc : ((m * 2 ^ (q - min q r).toNat : Int) : ℚ) ≤
        ((n * 2 ^ (r - min q r).toNat : Int) : ℚ) := by exact_mod_cast h
    push_cast at hc
    rw [zpow_toNat_sub q (min q r) hqs, zpow_toNat_sub r (min q r) hrs] at hc
    have h2 := mul_le_mul_of_nonneg_right hc (le_of_lt hpos)
    rwa [mul_assoc, mul_assoc,
      ← zpow_add₀ (by norm_num : (2 : ℚ) ≠ 0),
      ← zpow_add₀ (by norm_num : (2 : ℚ) ≠ 0),
      show q - min q r + min q r = q by omega,
      show r - min q r + min q r = r by omega] at h2
  · intro h
    have hpos' : (0 : ℚ) < (2 : ℚ) ^ (-(min q r)) := zpow_pos (by norm_num) _
    have h2 := mul_le_mul_of_nonneg_right h (le_of_lt hpos')
    rw [mul_assoc, mul_assoc,
      ← zpow_add₀ (by norm_num : (2 : ℚ) ≠ 0),
      ← zpow_add₀ (by norm_num : (2 : ℚ) ≠ 0),
      show q + -(min q r) = q - min q r by omega,
      show r + -(min q r) = r - min q r by omega,
      ← zpow_toNat_sub q (min q r) hqs, ← zpow_toNat_sub r (min q r) hrs] at h2
    exact_mod_cast h2

theorem JsFloat.lt_finite_iff (m q n r : Int) :
    JsFloat.lt (.finite m q) (.finite n r) = true ↔ dblVal m q < dblVal n r := by
  constructor
  · intro h
    by_contra hc
    push_neg at hc
    have := (JsFloat.le_finite_iff n r m q).2 hc
    unfold JsFloat.lt at h
    rw [this] at h
    simp at h
  · intro h
    unfold JsFloat.lt
    cases hle : JsFloat.le (.finite n r) (.finite m q) with
    | false => rfl
    | true =>
      exact absurd ((JsFloat.le_finite_iff n r m q).1 hle) (not_le.2 h)

/-- An exact decimal number: the value `mant / 10 ^ dexp` (used only by
the server's `totalTips` bookkeeping, see the section comment). -/
structure JsNum where
  mant : Int
  dexp : Nat
deriving DecidableEq

/-- Longest leading run of decimal digits, and the rest of the input. -/
def digitSpan : List Char → List Nat × List Char
  | [] => ([], [])
  | c :: cs =>
    match charDigit c with
    | some d =>
      let r := digitSpan cs
      (d :: r.1, r.2)
    | none => ([], c :: cs)

/-- `parseFloat` on a character list: optional sign, longest numeric run
(integer digits, optional dot, fraction digits); `none` when no digit is
found (NaN). -/
def jsParseFloatL (cs : List Char) : Option JsNum :=
  let signedRest : Bool × List Char :=
    match cs with
    | '-' :: r => (true, r)
    | '+' :: r => (false, r)
    | r => (false, r)
  let ipart := digitSpan signedRest.2
  let fpart :=
    match ipart.2 with
    | '.' :: r => (digitSpan r).1
    | _ => []
  if ipart.1.isEmpty && fpart.isEmpty then none
  else
    let m : Nat :=
      Nat.ofDigits 10 ipart.1.reverse * 10 ^ fpart.length +
        Nat.ofDigits 10 fpart.reverse
    some ⟨if signedRest.1 then -(m : Int) else (m : Int), fpart.length⟩

/-- String-level `parseFloat`. -/
def jsParseFloat (s : String) : Option JsNum := jsParseFloatL s.data

example : jsParseFloat "0.05" = some ⟨5, 2⟩ := by decide
example : jsParseFloat "" = none := by decide
example : jsParseFloat "abc" = none := by decide
example : jsParseFloat "-1" = some ⟨-1, 0⟩ := by decide
example : jsParseFloat "0" = some ⟨0, 0⟩ := by decide
example : jsParseFloat "1.2.3" = some ⟨12, 1⟩ := by decide

/-- `parseFloat` producing the IEEE-754 double JS actually stores: the
same lexical parse, with the exact decimal value rounded to the nearest
double. -/
def jsParseFloatDblL (cs : List Char) : Option JsFloat :=
  let signedRest : Bool × List Char :=
    match cs with
    | '-' :: r => (true, r)
    | '+' :: r => (false, r)
    | r => (false, r)
  let ipart := digitSpan signedRest.2
  let fpart :=
    match ipart.2 with
    | '.' :: r => (digitSpan r).1
    | _ => []
  if ipart.1.isEmpty && fpart.isEmpty then none
  else
    let m : Nat :=
      Nat.ofDigits 10 ipart.1.reverse * 10 ^ fpart.length +
        Nat.ofDigits 10 fpart.reverse
    if m = 0 then some (.finite 0 0)
    else
      let mag := roundPosToFloat m (10 ^ fpart.length)
      some (if signedRest.1 then mag.neg else mag)

/-- String-level double-valued `parseFloat`. -/
def jsParseFloatDbl (s : String) : Option JsFloat := jsParseFloatDblL s.data

example : jsParseFloatDbl "0" = some (.finite 0 0) := by decide
example : jsParseFloatDbl "1" = some (.finite 4503599627370496 (-52)) := by
  decide
example : jsParseFloatDbl "abc" = none := by decide
example : jsParseFloatDbl "0.1" =
    some (.finite 7205759403792794 (-56)) := by decide
example : jsParseFloatDbl "0.100000000000000001" =
    some (.finite 7205759403792794 (-56)) := by decide
example : jsParseFloatDbl "0.3" =
    some (.finite 5404319552844595 (-54)) := by decide

/-- JS `<=` on possibly-NaN numbers: false when either side is NaN. -/
def jsLeF (a b : Option JsFloat) : Bool :=
  match a, b with
  | some x, some y => JsFloat.le x y
  | _, _ => false

/-- JS `>` on possibly-NaN numbers: false when either side is NaN. -/
def jsGtF (a b : Option JsFloat) : Bool :=
  match a, b with
  | some x, some y => JsFloat.lt y x
  | _, _ => false

/-! ## The send-tip pipeline

`TipModal.handleSendTip` first runs `validateForm` (amount positive, amount
within balance, recipient address valid), then calls
`web3Service.sendTip(creator.address, amount)` — an alias of
`ShardeumAPI.sendTransaction` — and, on success, posts the tip record to
the backend with the returned transaction hash.

The injected provider, the signer and the RPC endpoint are modelled as an
environment of scripted responses (`none` meaning the corresponding call
throws), and every gas-price fetch, gas estimation and provider submission
performed by `sendTransaction` is counted in a trace. -/

/-- The expected chain id (`SHARDEUM_CHAIN_ID`, 8083). -/
def SHARDEUM_CHAIN_ID : String := "0x1f93"

/-- Scripted responses of the provider/RPC environment. -/
structure ProviderEnv where
  hasEthereum : Bool
  signerOk : Bool
  chainIdResp : Option String
  signerAddress : String
  gasPriceResp : Option String
  estimateGasResp : Option String
  sendTxResp : Option String
deriving DecidableEq

/-- Counts of the external calls made by one `sendTransaction` run. -/
structure SendTrace where
  gasPriceCalls : Nat
  estimateGasCalls : Nat
  submitCalls : Nat
deriving DecidableEq

/-- `ShardeumAPI.verifyNetwork`: the provider's `eth_chainId` must equal
`SHARDEUM_CHAIN_ID`; a thrown request reads as `false`. -/
def verifyNetwork (env : ProviderEnv) : Bool :=
  match env.chainIdResp with
  | some c => c = SHARDEUM_CHAIN_ID
  | none => false

/-- `ShardeumAPI.sendTransaction(to, amount, gasLimit)`: signer check, then
network check, then `parseEther(amount)`, then gas price, then gas
estimation (only when no explicit gas limit was passed), then the signer
submission, each failing with the source's error if its scripted response
is absent. -/
def sendTransaction (env : ProviderEnv) (toAddr amount : String)
    (gasLimit : Option Nat) : Except String String × SendTrace :=
  if env.hasEthereum = false ∨ env.signerOk = false then
    (.error "Wallet not connected. Please connect your wallet first.", ⟨0, 0, 0⟩)
  else if verifyNetwork env = false then
    (.error "Please switch to Shardeum Testnet before sending transactions", ⟨0, 0, 0⟩)
  else
    match toBaseUnits amount with
    | none => (.error "invalid decimal value (parseEther)", ⟨0, 0, 0⟩)
    | some _value =>
      match env.gasPriceResp with
      | none => (.error "Error getting gas price", ⟨1, 0, 0⟩)
      | some _gasPrice =>
        match gasLimit with
        | none =>
          match env.estimateGasResp with
          | none => (.error "Error estimating gas", ⟨1, 1, 0⟩)
          | some _estimated =>
            match env.sendTxResp with
            | some h => (.ok h, ⟨1, 1, 1⟩)
            | none => (.error "Error sending transaction", ⟨1, 1, 1⟩)
        | some _g =>
          match env.sendTxResp with
          | some h => (.ok h, ⟨1, 0, 1⟩)
          | none => (.error "Error sending transaction", ⟨1, 0, 1⟩)

/-- `TipModal.validateForm`: returns the error message it would display, or
`none` when the form passes.  Mirrors the JS literally: `!amount ||
parseFloat(amount) <= 0`, then `parseFloat(amount) >
parseFloat(walletState.balance)`, then `!isValidAddress(creator.address)`. -/
def validateForm (amount balance creatorAddress : String) : Option String :=
  if amount = "" || jsLeF (jsParseFloatDbl amount) (some (.finite 0 0)) then
    some "Please enter a valid amount"
  else if jsGtF (jsParseFloatDbl amount) (jsParseFloatDbl balance) then
    some "Insufficient balance"
  else if isValidAddress creatorAddress = false then
    some "Invalid creator address"
  else none

/-- The body of a `POST /api/tips` record call. -/
structure TipReq where
  fromAddress : String
  toAddress : String
  amount : String
  txHash : String
  creatorId : Option String
deriving DecidableEq

deriving instance DecidableEq for Except

/-- Outcome of one `TipModal.handleSendTip` run: the displayed result, the
provider-call trace, and every record call posted to the backend. -/
structure PipeResult where
  result : Except String Unit
  trace : SendTrace
  recordCalls : List TipReq
deriving DecidableEq

/-- `TipModal.handleSendTip`: validate, send, then record the tip with the
hash returned by the submission. -/
def handleSendTip (env : ProviderEnv) (walletAddress balance : String)
    (creatorId creatorAddress amount : String) : PipeResult :=
  match validateForm amount balance creatorAddress with
  | some e => { result := .error e, trace := ⟨0, 0, 0⟩, recordCalls := [] }
  | none =>
    match sendTransaction env creatorAddress amount none with
    | (.ok h, t) =>
      { result := .ok (), trace := t,
        recordCalls := [⟨walletAddress, creatorAddress, amount, h, some creatorId⟩] }
    | (.error e, t) => { result := .error e, trace := t, recordCalls := [] }

/-- When `validateForm` passes, none of its three rejection conditions
held. -/
theorem validateForm_none (amount balance addr : String)
    (h : validateForm amount balance addr = none) :
    jsLeF (jsParseFloatDbl amount) (some (.finite 0 0)) = false ∧
      jsGtF (jsParseFloatDbl amount) (jsParseFloatDbl balance) = false ∧
      isValidAddress addr = true := by
  unfold validateForm at h
  split at h
  next => simp at h
  next h1 =>
    split at h
    next => simp at h
    next h2 =>
      split at h
      next => simp at h
      next h3 =>
        simp only [Bool.or_eq_true, not_or, decide_eq_true_eq,
          Bool.not_eq_true] at h1
        simp only [Bool.not_eq_true] at h2
        simp only [Bool.not_eq_false] at h3
        exact ⟨h1.2, h2, h3⟩

/-- C1: whenever the amount parses (as the IEEE-754 double JS stores) to a
value `≤ 0`, or to a value strictly greater than the double the session's
balance parses to, or the recipient address is invalid, `handleSendTip`
fails with an error, the provider submission is never reached, and no tip
record is posted. -/
theorem claim_C1 (env : ProviderEnv)
    (walletAddress balance creatorId creatorAddress amount : String)
    (h : (∃ m q, jsParseFloatDbl amount = some (.finite m q) ∧
           dblVal m q ≤ 0) ∨
         (∃ m q n r, jsParseFloatDbl amount = some (.finite m q) ∧
           jsParseFloatDbl balance = some (.finite n r) ∧
           dblVal n r < dblVal m q) ∨
         isValidAddress creatorAddress = false) :
    (∃ e, (handleSendTip env walletAddress balance creatorId creatorAddress
        amount).result = .error e) ∧
      (handleSendTip env walletAddress balance creatorId creatorAddress
        amount).trace.submitCalls = 0 ∧
      (handleSendTip env walletAddress balance creatorId creatorAddress
        amount).recordCalls = [] := by
  unfold handleSendTip
  cases hvf : validateForm amount balance creatorAddress with
  | some e => exact ⟨⟨e, rfl⟩, rfl, rfl⟩
  | none =>
    exfalso
    obtain ⟨hle, hgt, haddr⟩ := validateForm_none _ _ _ hvf
    rcases h with ⟨m, q, hv, hv0⟩ | ⟨m, q, n, r, hv, hb, hbv⟩ | haddr'
    · rw [hv] at hle
      simp only [jsLeF] at hle
      rw [← dblVal_zero] at hv0
      rw [(JsFloat.le_finite_iff m q 0 0).2 hv0] at hle
      exact absurd hle (by simp)
    · rw [hv, hb] at hgt
      simp only [jsGtF] at hgt
      rw [(JsFloat.lt_finite_iff n r m q).2 hbv] at hgt
      exact absurd hgt (by simp)
    · rw [haddr'] at haddr
      exact Bool.false_ne_true haddr

/-- Witness for C1: amount "0" with sufficient balance and a valid
recipient is rejected before any provider call. -/
theorem claim_C1_witness :
    (∃ e, (handleSendTip ⟨true, true, some "0x1f93", "0xfrom", some "0x1",
        some "0x5208", some "0xhash"⟩ "0xabc" "1" "1"
        "0x26d6a3805cbae5d5a510443a15129bec456cacff" "0").result = .error e) ∧
      (handleSendTip ⟨true, true, some "0x1f93", "0xfrom", some "0x1",
        some "0x5208", some "0xhash"⟩ "0xabc" "1" "1"
        "0x26d6a3805cbae5d5a510443a15129bec456cacff" "0").trace.submitCalls = 0 ∧
      (handleSendTip ⟨true, true, some "0x1f93", "0xfrom", some "0x1",
        some "0x5208", some "0xhash"⟩ "0xabc" "1" "1"
        "0x26d6a3805cbae5d5a510443a15129bec456cacff" "0").recordCalls = [] :=
  claim_C1 _ _ _ _ _ _ (Or.inl ⟨0, 0, by decide, by simp [dblVal]⟩)

/-- C2: when the provider reports a chain id different from `0x1f93`, the
send fails with the wrong-network error and the trace is empty: no gas
price fetch, no gas estimation, no submission. -/
theorem claim_C2 (env : ProviderEnv) (toAddr amount : String)
    (gasLimit : Option Nat) (c : String)
    (hc : env.chainIdResp = some c) (hne : c ≠ SHARDEUM_CHAIN_ID)
    (hEth : env.hasEthereum = true) (hSig : env.signerOk = true) :
    sendTransaction env toAddr amount gasLimit =
      (.error "Please switch to Shardeum Testnet before sending transactions",
        ⟨0, 0, 0⟩) := by
  have h1 : ¬ (env.hasEthereum = false ∨ env.signerOk = false) := by
    simp [hEth, hSig]
  have h2 : verifyNetwork env = false := by
    unfold verifyNetwork
    rw [hc]
    simp [hne]
  unfold sendTransaction
  rw [if_neg h1, if_pos h2]

/-- Witness for C2: chain id "0x1" (mainnet) instead of "0x1f93". -/
theorem claim_C2_witness :
    sendTransaction ⟨true, true, some "0x1", "0xfrom", some "0x1",
        some "0x5208", some "0xhash"⟩ "0xto" "1" none =
      (.error "Please switch to Shardeum Testnet before sending transactions",
        ⟨0, 0, 0⟩) :=
  claim_C2 _ _ _ _ "0x1" rfl (by decide) rfl rfl

/-! ## The backend store (`server/index.js`)

The Express app keeps two in-memory arrays, `creators` and `transactions`.
`POST /api/tips` rejects a request with any falsy required field with a 400,
otherwise appends a `pending` record (addresses lower-cased, id from
`Date.now()`, timestamp from `new Date()`) and, when `creatorId` is truthy
and matches a creator, bumps that creator's `totalTips` (via
`parseFloat` addition and `toString`) and `tipCount`. -/

/-- ASCII lower-casing of one character (JS `toLowerCase` on the
ASCII addresses this server handles). -/
def toLowerChar (c : Char) : Char :=
  if 65 ≤ c.toNat ∧ c.toNat ≤ 90 then Char.ofNat (c.toNat + 32) else c

/-- JS `toLowerCase`. -/
def jsToLower (s : String) : String := String.mk (s.data.map toLowerChar)

/-- Exact-decimal addition (JS `+` on numbers; IEEE rounding of doubles is
outside the model — the values this server adds are short decimal
strings). -/
def JsNum.add (a b : JsNum) : JsNum :=
  ⟨a.mant * ((10 ^ b.dexp : Nat) : Int) + b.mant * ((10 ^ a.dexp : Nat) : Int),
    a.dexp + b.dexp⟩

/-- Remove common factors of 10 between mantissa and decimal exponent
(fuel-bounded). -/
def stripTens : Nat → Nat → Nat → Nat × Nat
  | 0, n, e => (n, e)
  | fuel + 1, n, e =>
    if e = 0 then (n, e)
    else if n % 10 = 0 ∧ n ≠ 0 then stripTens fuel (n / 10) (e - 1)
    else (n, e)

/-- JS `Number.prototype.toString` on an exact decimal: no decimal point
for integers, otherwise the shortest decimal form. -/
def jsNumToString (a : JsNum) : String :=
  if a.mant = 0 then "0"
  else
    let p := stripTens a.dexp a.mant.natAbs a.dexp
    let sign := if a.mant < 0 then "-" else ""
    if p.2 = 0 then sign ++ String.mk (natStr p.1)
    else
      let fr := p.1 % 10 ^ p.2
      sign ++ String.mk (natStr (p.1 / 10 ^ p.2) ++ '.' ::
        (List.replicate (p.2 - (natDigitsBE fr).length) '0' ++ natDigitsBE fr))

/-- `(parseFloat(a) + parseFloat(b)).toString()`, the server's
`totalTips` update expression. -/
def addNumStrings (a b : String) : String :=
  match jsParseFloat a, jsParseFloat b with
  | some x, some y => jsNumToString (JsNum.add x y)
  | _, _ => "NaN"

example : addNumStrings "0" "0.5" = "0.5" := by decide
example : addNumStrings "1.5" "2.5" = "4" := by decide
example : addNumStrings "abc" "1" = "NaN" := by decide

/-- A creator record of the store. -/
structure Creator where
  id : String
  name : String
  address : String
  description : String
  avatar : String
  totalTips : String
  tipCount : Nat
deriving DecidableEq

/-- A stored tip transaction record. -/
structure TxRecord where
  id : String
  fromAddress : String
  toAddress : String
  amount : String
  txHash : String
  creatorId : Option String
  timestamp : String
  status : String
deriving DecidableEq

/-- The server's in-memory state. -/
structure Store where
  creators : List Creator
  transactions : List TxRecord
deriving DecidableEq

/-- `creators.find(c => c.id === creatorId)` followed by the in-place stats
update: only the first matching creator is modified. -/
def updateFirstCreator (cid amount : String) : List Creator → List Creator
  | [] => []
  | c :: cs =>
    if c.id = cid then
      { c with
          totalTips := addNumStrings c.totalTips amount
          tipCount := c.tipCount + 1 } :: cs
    else c :: updateFirstCreator cid amount cs

/-- Result of a `POST /api/tips` request. -/
structure PostResult where
  status : Nat
  body : Option TxRecord
  newStore : Store
deriving DecidableEq

/-- The `POST /api/tips` handler.  `now` models `Date.now().toString()` and
`ts` models `new Date().toISOString()`; an absent `creatorId` is `none` and
the JS falsy test on strings is the empty-string test. -/
def postTips (store : Store) (req : TipReq) (now ts : String) : PostResult :=
  if req.fromAddress = "" ∨ req.toAddress = "" ∨ req.amount = "" ∨
      req.txHash = "" then
    { status := 400, body := none, newStore := store }
  else
    let record : TxRecord :=
      { id := now, fromAddress := jsToLower req.fromAddress,
        toAddress := jsToLower req.toAddress, amount := req.amount,
        txHash := req.txHash, creatorId := req.creatorId, timestamp := ts,
        status := "pending" }
    let creators :=
      match req.creatorId with
      | none => store.creators
      | some cid =>
        if cid = "" then store.creators
        else updateFirstCreator cid req.amount store.creators
    { status := 201, body := some record,
      newStore :=
        { creators := creators,
          transactions := store.transactions ++ [record] } }

/-- A fully scripted successful submission returns the environment's hash
and performs exactly one gas-price fetch, one estimation and one
submission. -/
theorem sendTransaction_ok (env : ProviderEnv) (toAddr amount H gp eg : String)
    (w : Nat)
    (hEth : env.hasEthereum = true) (hSig : env.signerOk = true)
    (hChain : env.chainIdResp = some SHARDEUM_CHAIN_ID)
    (hAmt : toBaseUnits amount = some w)
    (hGp : env.gasPriceResp = some gp)
    (hEg : env.estimateGasResp = some eg)
    (hTx : env.sendTxResp = some H) :
    sendTransaction env toAddr amount none = (.ok H, ⟨1, 1, 1⟩) := by
  unfold sendTransaction
  rw [if_neg (by simp [hEth, hSig]),
    if_neg (by unfold verifyNetwork; rw [hChain]; simp)]
  rw [hAmt, hGp, hEg, hTx]

/-- C3: after a successful submission returning hash `H`, the pipeline
posts exactly one tip record with `txHash = H`, and the store answers 201
with a record whose status is `pending` and whose hash is `H`.  Moreover —
for arbitrary runs — every recorded tip carries exactly the hash the
submission returned (the core never fabricates one), and the store refuses
to create a record when the transaction hash is empty. -/
theorem claim_C3 (env : ProviderEnv)
    (walletAddress balance creatorId creatorAddress amount H gp eg : String)
    (w : Nat) (store : Store) (now ts : String)
    (hEth : env.hasEthereum = true) (hSig : env.signerOk = true)
    (hChain : env.chainIdResp = some SHARDEUM_CHAIN_ID)
    (hAmt : toBaseUnits amount = some w)
    (hGp : env.gasPriceResp = some gp)
    (hEg : env.estimateGasResp = some eg)
    (hTx : env.sendTxResp = some H)
    (hvf : validateForm amount balance creatorAddress = none)
    (hW : walletAddress ≠ "") (hC : creatorAddress ≠ "") (hA : amount ≠ "")
    (hH : H ≠ "") :
    (handleSendTip env walletAddress balance creatorId creatorAddress
        amount).recordCalls =
      [⟨walletAddress, creatorAddress, amount, H, some creatorId⟩] ∧
    (postTips store ⟨walletAddress, creatorAddress, amount, H, some creatorId⟩
        now ts).status = 201 ∧
    (∃ rec, (postTips store
        ⟨walletAddress, creatorAddress, amount, H, some creatorId⟩ now
        ts).body = some rec ∧ rec.status = "pending" ∧ rec.txHash = H) ∧
    (∀ env' wa b cid ca amt,
      ∀ r ∈ (handleSendTip env' wa b cid ca amt).recordCalls,
        (sendTransaction env' ca amt none).1 = .ok r.txHash) ∧
    (∀ st req n t, req.txHash = "" →
      postTips st req n t = { status := 400, body := none, newStore := st }) := by
  have hneg : ¬ (walletAddress = "" ∨ creatorAddress = "" ∨ amount = "" ∨
      H = "") := by simp [hW, hC, hA, hH]
  refine ⟨?_, ?_, ?_, ?_, ?_⟩
  · unfold handleSendTip
    rw [hvf, sendTransaction_ok env creatorAddress amount H gp eg w hEth hSig
      hChain hAmt hGp hEg hTx]
  · unfold postTips
    rw [if_neg hneg]
  · unfold postTips
    rw [if_neg hneg]
    exact ⟨_, rfl, rfl, rfl⟩
  · intro env' wa b cid ca amt r hr
    unfold handleSendTip at hr
    cases hvf' : validateForm amt b ca with
    | some e => rw [hvf'] at hr; simp at hr
    | none =>
      rw [hvf'] at hr
      cases hst : sendTransaction env' ca amt none with
      | mk res t =>
        rw [hst] at hr
        cases res with
        | ok h =>
          simp only [List.mem_singleton] at hr
          rw [hr]
        | error e => simp at hr
  · intro st req n t h
    unfold postTips
    rw [if_pos (Or.inr (Or.inr (Or.inr h)))]

/-- Witness for C3 at a fully concrete successful run. -/
theorem claim_C3_witness :
    (handleSendTip ⟨true, true, some "0x1f93", "0xfrom", some "0x3b9aca00",
        some "0x5208", some "0xhash123"⟩ "0xabc" "2" "2"
        "0x26d6a3805cbae5d5a510443a15129bec456cacff" "1").recordCalls =
      [⟨"0xabc", "0x26d6a3805cbae5d5a510443a15129bec456cacff", "1",
        "0xhash123", some "2"⟩] ∧
    (postTips ⟨[], []⟩ ⟨"0xabc", "0x26d6a3805cbae5d5a510443a15129bec456cacff",
        "1", "0xhash123", some "2"⟩ "100" "t0").status = 201 ∧
    (∃ rec, (postTips ⟨[], []⟩ ⟨"0xabc",
        "0x26d6a3805cbae5d5a510443a15129bec456cacff", "1", "0xhash123",
        some "2"⟩ "100" "t0").body = some rec ∧ rec.status = "pending" ∧
        rec.txHash = "0xhash123") ∧
    (∀ env' wa b cid ca amt,
      ∀ r ∈ (handleSendTip env' wa b cid ca amt).recordCalls,
        (sendTransaction env' ca amt none).1 = .ok r.txHash) ∧
    (∀ st req n t, req.txHash = "" →
      postTips st req n t = { status := 400, body := none, newStore := st }) :=
  claim_C3 _ "0xabc" "2" "2" "0x26d6a3805cbae5d5a510443a15129bec456cacff"
    "1" "0xhash123" "0x3b9aca00" "0x5208" 1000000000000000000 ⟨[], []⟩ "100"
    "t0" rfl rfl rfl (by decide) rfl rfl rfl (by decide) (by decide)
    (by decide) (by decide) (by decide)

theorem updateFirstCreator_no_match (cid amount : String) (cs : List Creator)
    (h : ∀ c ∈ cs, c.id ≠ cid) : updateFirstCreator cid amount cs = cs := by
  induction cs with
  | nil => rfl
  | cons c cs ih =>
    rw [updateFirstCreator, if_neg (h c (List.mem_cons_self c cs)),
      ih fun x hx => h x (List.mem_cons_of_mem c hx)]

theorem updateFirstCreator_match (cid amount : String) (pre : List Creator)
    (c : Creator) (post : List Creator)
    (hpre : ∀ x ∈ pre, x.id ≠ cid) (hc : c.id = cid) :
    updateFirstCreator cid amount (pre ++ c :: post) =
      pre ++ { c with
        totalTips := addNumStrings c.totalTips amount
        tipCount := c.tipCount + 1 } :: post := by
  induction pre with
  | nil =>
    simp only [List.nil_append]
    rw [updateFirstCreator, if_pos hc]
  | cons p ps ih =>
    simp only [List.cons_append]
    rw [updateFirstCreator, if_neg (hpre p (List.mem_cons_self p ps)),
      ih fun x hx => hpre x (List.mem_cons_of_mem p hx)]

/-- C10: a tip POST with all required fields present always answers 201 and
appends the record; when `creatorId` is absent, empty, or matches no
creator, the creators list is untouched; when it matches, only the first
matching creator's `totalTips`/`tipCount` change and every other creator is
unchanged. -/
theorem claim_C10 (store : Store) (req : TipReq) (now ts : String)
    (h1 : req.fromAddress ≠ "") (h2 : req.toAddress ≠ "") (h3 : req.amount ≠ "")
    (h4 : req.txHash ≠ "") :
    (postTips store req now ts).status = 201 ∧
    (∃ rec, (postTips store req now ts).body = some rec ∧
      (postTips store req now ts).newStore.transactions =
        store.transactions ++ [rec]) ∧
    ((req.creatorId = none ∨ req.creatorId = some "" ∨
        (∀ c ∈ store.creators, req.creatorId ≠ some c.id)) →
      (postTips store req now ts).newStore.creators = store.creators) ∧
    (∀ cid pre c post, req.creatorId = some cid → cid ≠ "" →
      store.creators = pre ++ c :: post → (∀ x ∈ pre, x.id ≠ cid) →
      c.id = cid →
      (postTips store req now ts).newStore.creators =
        pre ++ { c with
          totalTips := addNumStrings c.totalTips req.amount
          tipCount := c.tipCount + 1 } :: post) := by
  have hneg : ¬ (req.fromAddress = "" ∨ req.toAddress = "" ∨ req.amount = "" ∨
      req.txHash = "") := by simp [h1, h2, h3, h4]
  unfold postTips
  rw [if_neg hneg]
  refine ⟨rfl, ⟨_, rfl, rfl⟩, ?_, ?_⟩
  · intro h
    rcases hcid : req.creatorId with _ | cid
    · rfl
    · show (if cid = "" then store.creators
          else updateFirstCreator cid req.amount store.creators) =
        store.creators
      by_cases hc0 : cid = ""
      · rw [if_pos hc0]
      · rw [if_neg hc0]
        rcases h with h | h | h
        · rw [hcid] at h
          exact absurd h (by simp)
        · rw [hcid] at h
          exact absurd (by injection h : cid = "") hc0
        · exact updateFirstCreator_no_match cid req.amount store.creators
            fun c hc hxc => h c hc (by rw [hcid, hxc])
  · intro cid pre c post hcid hne hsplit hpre hc
    rw [hcid]
    show (if cid = "" then store.creators
        else updateFirstCreator cid req.amount store.creators) =
      pre ++ { c with
        totalTips := addNumStrings c.totalTips req.amount
        tipCount := c.tipCount + 1 } :: post
    rw [if_neg hne, hsplit,
      updateFirstCreator_match cid req.amount pre c post hpre hc]

/-- Witness for C10 at a concrete store and request. -/
theorem claim_C10_witness :
    (postTips ⟨[], []⟩ ⟨"0xa", "0xb", "1", "0xh", some "2"⟩ "100"
      "t0").status = 201 :=
  (claim_C10 ⟨[], []⟩ ⟨"0xa", "0xb", "1", "0xh", some "2"⟩ "100" "t0"
    (by decide) (by decide) (by decide) (by decide)).1

/-! ## Network switching (`switchToShardeum`)

`switchToShardeum` asks the provider to switch to chain `0x1f93`; when the
switch request throws with code 4902 ("unrecognized chain") it issues a
single `wallet_addEthereumChain` request with the Shardeum parameters and
does not retry the switch; a switch failure with any other code aborts the
whole operation. -/

/-- The `wallet_addEthereumChain` parameter block of the source. -/
structure ChainAddParams where
  chainId : String
  chainName : String
  currencyName : String
  currencySymbol : String
  currencyDecimals : Nat
  rpcUrls : List String
  blockExplorerUrls : List String
  iconUrls : List String
deriving DecidableEq

/-- The concrete parameters hard-coded in `switchToShardeum`. -/
def shardeumAddParams : ChainAddParams :=
  { chainId := SHARDEUM_CHAIN_ID, chainName := "Shardeum Testnet",
    currencyName := "Shardeum", currencySymbol := "SHM",
    currencyDecimals := 18,
    rpcUrls := ["https://api-testnet.shardeum.org"],
    blockExplorerUrls := ["https://explorer-testnet.shardeum.org"],
    iconUrls := ["https://shardeum.org/favicon.ico"] }

/-- Scripted provider responses for the switch flow: `switchError = none`
means `wallet_switchEthereumChain` succeeds, `some c` that it throws with
error code `c`. -/
structure SwitchEnv where
  hasEthereum : Bool
  switchError : Option Int
  addChainOk : Bool
deriving DecidableEq

/-- The provider requests issued during one `switchToShardeum` run. -/
structure SwitchTrace where
  switchRequests : List String
  addChainRequests : List ChainAddParams
deriving DecidableEq

/-- `Web3Service.switchToShardeum` / `ShardeumAPI.switchToShardeum`. -/
def switchToShardeum (env : SwitchEnv) : Except String Unit × SwitchTrace :=
  if env.hasEthereum = false then
    (.error "MetaMask is not installed", ⟨[], []⟩)
  else
    match env.switchError with
    | none => (.ok (), ⟨[SHARDEUM_CHAIN_ID], []⟩)
    | some code =>
      if code = 4902 then
        if env.addChainOk then
          (.ok (), ⟨[SHARDEUM_CHAIN_ID], [shardeumAddParams]⟩)
        else
          (.error "Failed to add Shardeum network",
            ⟨[SHARDEUM_CHAIN_ID], [shardeumAddParams]⟩)
      else (.error "Failed to switch to Shardeum network",
        ⟨[SHARDEUM_CHAIN_ID], []⟩)

/-- C6: on error code 4902 the operation issues exactly one add-chain
request (with the Shardeum parameters) and exactly one switch request — it
never re-attempts the switch; on any other switch error code the operation
fails and no add-chain request is made. -/
theorem claim_C6 (env : SwitchEnv) (hEth : env.hasEthereum = true) :
    (env.switchError = some 4902 →
      (switchToShardeum env).2.addChainRequests = [shardeumAddParams] ∧
        (switchToShardeum env).2.switchRequests = [SHARDEUM_CHAIN_ID]) ∧
    (∀ c, env.switchError = some c → c ≠ 4902 →
      (∃ e, (switchToShardeum env).1 = .error e) ∧
        (switchToShardeum env).2.addChainRequests = []) := by
  unfold switchToShardeum
  rw [if_neg (by simp [hEth])]
  refine ⟨fun h => ?_, fun c hc hne => ?_⟩
  · cases ha : env.addChainOk <;> simp [h, ha]
  · simp only [hc]
    rw [if_neg hne]
    exact ⟨⟨_, rfl⟩, rfl⟩

/-! ## Provider event listeners

`onAccountsChanged`/`onChainChanged` call the provider's EventEmitter `.on`,
which appends the callback to the event's listener list;
`removeAllListeners` clears both lists.  Handlers are identified by
numbers; emitting an event invokes each registered handler once, in
registration order. -/

/-- The provider's listener lists for the two subscribed events. -/
structure ListenerState where
  accountsChanged : List Nat
  chainChanged : List Nat
deriving DecidableEq

/-- `ShardeumAPI.onAccountsChanged`: `window.ethereum.on('accountsChanged',
cb)` — appends. -/
def onAccountsChanged (hasEthereum : Bool) (st : ListenerState)
    (handler : Nat) : ListenerState :=
  if hasEthereum then
    { st with accountsChanged := st.accountsChanged ++ [handler] }
  else st

/-- `ShardeumAPI.onChainChanged`: appends to the chain-changed list. -/
def onChainChanged (hasEthereum : Bool) (st : ListenerState)
    (handler : Nat) : ListenerState :=
  if hasEthereum then
    { st with chainChanged := st.chainChanged ++ [handler] }
  else st

/-- `ShardeumAPI.removeAllListeners`: clears both events' listener lists. -/
def removeAllListeners (hasEthereum : Bool) (st : ListenerState) :
    ListenerState :=
  if hasEthereum then { accountsChanged := [], chainChanged := [] } else st

/-- Emitting accounts-changed invokes each registered handler once, in
order. -/
def emitAccountsChanged (st : ListenerState) : List Nat := st.accountsChanged

/-- C8 counterexample: subscribing the same handler twice stacks two
listeners — the provider `.on` appends rather than replaces — so one
triggered event invokes the handler twice, not once. -/
theorem claim_C8_counterexample :
    emitAccountsChanged
        (onAccountsChanged true (onAccountsChanged true ⟨[], []⟩ 7) 7) =
      [7, 7] := by decide

/-- C8 (amended): subscribing appends a listener (re-subscribing stacks a
duplicate rather than replacing), `removeAllListeners` leaves zero
listeners for both event kinds, and a triggered event invokes each
registered handler exactly once in registration order. -/
theorem claim_C8 (st : ListenerState) (h : Nat) :
    (onAccountsChanged true st h).accountsChanged =
        st.accountsChanged ++ [h] ∧
      (onChainChanged true st h).chainChanged = st.chainChanged ++ [h] ∧
      (removeAllListeners true st).accountsChanged = [] ∧
      (removeAllListeners true st).chainChanged = [] ∧
      emitAccountsChanged st = st.accountsChanged :=
  ⟨rfl, rfl, rfl, rfl, rfl⟩

/-- Witness for C6: error code 4902 with a working add-chain request. -/
theorem claim_C6_witness :
    (switchToShardeum ⟨true, some 4902, true⟩).2.addChainRequests =
        [shardeumAddParams] ∧
      (switchToShardeum ⟨true, some 4902, true⟩).2.switchRequests =
        [SHARDEUM_CHAIN_ID] :=
  (claim_C6 ⟨true, some 4902, true⟩ rfl).1 rfl

/-! ## JSON-RPC calls

The server helper `shardeumRPC(method, params)` posts a single JSON-RPC 2.0
envelope with `axios` and returns `response.data.result`; the client's
`getGasPrice` (and its siblings `getChainId`, `getBlockNumber`) posts a
`fetch` body that carries `method`, `id` and `jsonrpc` but **no** `params`
field.  Neither checks for a JSON-RPC `error` member in a 200 response: the
`.result` access of an error envelope simply yields `undefined`. -/

/-- A JSON value (the fragment these endpoints exchange). -/
inductive JsonVal where
  | null
  | str (s : String)
  | num (n : Nat)
  | arr (xs : List JsonVal)
  | obj (fields : List (String × JsonVal))

/-- First binding of a key in a JSON object's field list. -/
def lookupField : List (String × JsonVal) → String → Option JsonVal
  | [], _ => none
  | (k, v) :: rest, key => if k = key then some v else lookupField rest key

/-- JS member access `j[key]`: `none` is `undefined`. -/
def jsonGet (j : JsonVal) (key : String) : Option JsonVal :=
  match j with
  | .obj fields => lookupField fields key
  | _ => none

/-- The request body built by the server's `shardeumRPC`. -/
def serverRpcBody (method : String) (params : List JsonVal) : JsonVal :=
  .obj [("jsonrpc", .str "2.0"), ("method", .str method),
    ("params", .arr params), ("id", .num 1)]

/-- The request body built by the client's `getGasPrice` — note the absent
`params` member. -/
def clientGasPriceBody : JsonVal :=
  .obj [("method", .str "eth_gasPrice"), ("id", .num 1),
    ("jsonrpc", .str "2.0")]

/-- One RPC call: the POST bodies it sent and what it returned.  `result =
.ok none` models returning `undefined`. -/
structure RpcResult where
  posts : List JsonVal
  result : Except String (Option JsonVal)

/-- `shardeumRPC`: one POST; a transport failure (`response = none`)
re-throws, any JSON body yields `response.data.result`. -/
def shardeumRPC (response : Option JsonVal) (method : String)
    (params : List JsonVal) : RpcResult :=
  { posts := [serverRpcBody method params],
    result :=
      match response with
      | none => .error "RPC Error"
      | some j => .ok (jsonGet j "result") }

/-- A well-formed JSON-RPC error envelope (HTTP 200, no `result`). -/
def errorEnvelope : JsonVal :=
  .obj [("jsonrpc", .str "2.0"),
    ("error", .obj [("code", .num 32000), ("message", .str "bad request")]),
    ("id", .num 1)]

/-- C7 counterexample: a JSON-RPC error envelope is *not* surfaced as a
failure — the call succeeds with an absent (`undefined`) result — and the
client's gas-price body carries no `params` field at all. -/
theorem claim_C7_counterexample :
    (shardeumRPC (some errorEnvelope) "eth_gasPrice" []).result = .ok none ∧
      jsonGet clientGasPriceBody "params" = none := ⟨rfl, rfl⟩

/-- C7 (amended): every RPC helper call posts exactly one envelope and is
never retried; the server envelope carries `jsonrpc = "2.0"`, the method,
the params array and an id, while the client gas-price envelope carries
`method`/`id`/`jsonrpc` but no `params`; a transport failure surfaces as an
error, and any transported JSON body — including a JSON-RPC error
envelope — yields its `.result` member (absent means `undefined`, not an
error). -/
theorem claim_C7 (response : Option JsonVal) (method : String)
    (params : List JsonVal) :
    (shardeumRPC response method params).posts =
        [serverRpcBody method params] ∧
      jsonGet (serverRpcBody method params) "jsonrpc" = some (.str "2.0") ∧
      jsonGet (serverRpcBody method params) "method" = some (.str method) ∧
      jsonGet (serverRpcBody method params) "params" = some (.arr params) ∧
      jsonGet (serverRpcBody method params) "id" = some (.num 1) ∧
      (response = none →
        (shardeumRPC response method params).result = .error "RPC Error") ∧
      (∀ j, response = some j →
        (shardeumRPC response method params).result =
          .ok (jsonGet j "result")) ∧
      jsonGet clientGasPriceBody "method" = some (.str "eth_gasPrice") ∧
      jsonGet clientGasPriceBody "id" = some (.num 1) ∧
      jsonGet clientGasPriceBody "jsonrpc" = some (.str "2.0") ∧
      jsonGet clientGasPriceBody "params" = none := by
  refine ⟨rfl, rfl, rfl, rfl, rfl, fun h => by rw [h]; rfl,
    fun j hj => by rw [hj]; rfl, rfl, rfl, rfl, rfl⟩

/-- Witness for C7 at a concrete transport failure. -/
theorem claim_C7_witness :
    (shardeumRPC none "eth_chainId" []).result = .error "RPC Error" :=
  (claim_C7 none "eth_chainId" []).2.2.2.2.2.1 rfl

/-! ## Numeric chain values (`GET /api/network`)

The server fetches `eth_chainId`, `eth_blockNumber` and `eth_gasPrice` and
answers `{ chainId, blockNumber: parseInt(blockNumber, 16), gasPrice:
parseInt(gasPrice, 16) }`.  `parseInt` produces an IEEE-754 double: the hex
digits are read exactly and the integer is then rounded to 53 bits of
significand (round half to even) — exact below `2 ^ 53`, lossy above. -/

/-- Hex digit value, either case. -/
def hexDigitVal (c : Char) : Option Nat :=
  if 48 ≤ c.toNat ∧ c.toNat ≤ 57 then some (c.toNat - 48)
  else if 97 ≤ c.toNat ∧ c.toNat ≤ 102 then some (c.toNat - 87)
  else if 65 ≤ c.toNat ∧ c.toNat ≤ 70 then some (c.toNat - 55)
  else none

/-- Longest leading run of hex digits. -/
def hexSpan : List Char → List Nat × List Char
  | [] => ([], [])
  | c :: cs =>
    match hexDigitVal c with
    | some d =>
      let r := hexSpan cs
      (d :: r.1, r.2)
    | none => ([], c :: cs)

/-- Value of a big-endian hex digit list. -/
def fromHexDigits (ds : List Nat) : Nat :=
  ds.foldl (fun acc d => acc * 16 + d) 0

/-- Round an integer to the nearest IEEE-754 double (53-bit significand,
ties to even; overflow to infinity is outside the modelled range). -/
def nearestFloat64 (m : Nat) : Nat :=
  if bitLen m ≤ 53 then m
  else
    let sh := bitLen m - 53
    let q := m >>> sh
    let r := m % 2 ^ sh
    let half := 2 ^ (sh - 1)
    let q' := if half < r ∨ (r = half ∧ q % 2 = 1) then q + 1 else q
    q' <<< sh

/-- Exact integer value of a hex chain quantity: optional `0x`/`0X`, then
the longest hex digit run; `none` (NaN) when no digit is found. -/
def hexVal (s : String) : Option Nat :=
  let cs :=
    match s.data with
    | '0' :: 'x' :: rest => rest
    | '0' :: 'X' :: rest => rest
    | cs => cs
  let p := hexSpan cs
  if p.1.isEmpty then none else some (fromHexDigits p.1)

/-- `parseInt(s, 16)`: the exact hex value rounded to a double. -/
def jsParseIntHex (s : String) : Option Nat :=
  (hexVal s).map nearestFloat64

/-- The scripted RPC results behind `GET /api/network` (`none`: the RPC
call fails and the route answers 500). -/
structure NetworkEnv where
  chainIdResp : Option String
  blockNumberResp : Option String
  gasPriceResp : Option String
deriving DecidableEq

/-- The JSON body answered by `GET /api/network`. -/
structure NetworkResp where
  chainId : String
  blockNumber : Option Nat
  gasPrice : Option Nat
deriving DecidableEq

/-- The `GET /api/network` handler: chain id passed through as the raw hex
string, block number and gas price run through `parseInt(·, 16)`. -/
def getNetworkRoute (env : NetworkEnv) : Option NetworkResp :=
  match env.chainIdResp, env.blockNumberResp, env.gasPriceResp with
  | some c, some b, some g => some ⟨c, jsParseIntHex b, jsParseIntHex g⟩
  | _, _, _ => none

theorem bitLenAux_le (fuel : Nat) : ∀ n k, n ≤ fuel → n < 2 ^ k →
    bitLenAux fuel n ≤ k := by
  induction fuel with
  | zero =>
    intro n k hf _
    interval_cases n
    simp [bitLenAux]
  | succ m ih =>
    intro n k hf h
    cases n with
    | zero => simp [bitLenAux]
    | succ j =>
      rw [bitLenAux]
      have hk : k ≠ 0 := by
        intro h0
        rw [h0] at h
        omega
      have h2 : (j + 1) / 2 < 2 ^ (k - 1) := by
        apply Nat.div_lt_of_lt_mul
        have : 2 ^ (k - 1) * 2 = 2 ^ k := by
          rw [← pow_succ]
          congr 1
          omega
        omega
      have := ih ((j + 1) / 2) (k - 1) (by omega) h2
      omega

/-- Doubles are exact below `2 ^ 53`. -/
theorem nearestFloat64_exact (m : Nat) (h : m < 2 ^ 53) :
    nearestFloat64 m = m := by
  unfold nearestFloat64
  rw [if_pos (show bitLen m ≤ 53 from bitLenAux_le m m 53 le_rfl h)]

/-- C9 counterexample: the block number `0x20000000000001` (`2 ^ 53 + 1`)
is *not* parsed losslessly — `parseInt` yields the double `2 ^ 53`, so the
route's response differs from the exact big-integer value of the hex
string. -/
theorem claim_C9_counterexample :
    hexVal "0x20000000000001" = some 9007199254740993 ∧
      jsParseIntHex "0x20000000000001" = some 9007199254740992 ∧
      getNetworkRoute ⟨some "0x1f93", some "0x20000000000001", some "0x1"⟩ =
        some ⟨"0x1f93", some 9007199254740992, some 1⟩ := by decide

/-- C9 (amended): the chain values arrive as `0x` hex strings; the chain id
is passed through verbatim, while block number and gas price are parsed by
`parseInt` into doubles — exact only for values below `2 ^ 53` (values at
or above `2 ^ 53` are rounded, see the counterexample). -/
theorem claim_C9 (env : NetworkEnv) (c b g : String) (nb ng : Nat)
    (hc : env.chainIdResp = some c) (hb : env.blockNumberResp = some b)
    (hg : env.gasPriceResp = some g)
    (hnb : hexVal b = some nb) (hng : hexVal g = some ng)
    (hb53 : nb < 2 ^ 53) (hg53 : ng < 2 ^ 53) :
    getNetworkRoute env = some ⟨c, some nb, some ng⟩ := by
  unfold getNetworkRoute
  rw [hc, hb, hg]
  show some (NetworkResp.mk c (jsParseIntHex b) (jsParseIntHex g)) = _
  unfold jsParseIntHex
  rw [hnb, hng]
  simp only [Option.map_some']
  rw [nearestFloat64_exact nb hb53, nearestFloat64_exact ng hg53]

/-- Witness for C9 at small concrete chain values. -/
theorem claim_C9_witness :
    getNetworkRoute ⟨some "0x1f93", some "0x10", some "0x3b9aca00"⟩ =
      some ⟨"0x1f93", some 16, some 1000000000⟩ :=
  claim_C9 ⟨some "0x1f93", some "0x10", some "0x3b9aca00"⟩ "0x1f93" "0x10"
    "0x3b9aca00" 16 1000000000 rfl rfl rfl (by decide) (by decide)
    (by decide) (by decide)

end TipJar
